import Mathlib

/-!
Shallow embedding of `ggshield/scan/scannable.py` (raw-patch parsing, scan
result collection, the `ScanCollection` report tree and the `Commit`
memoization layer), together with theorems checking the repository
specification against it.

Patch text is modelled as `List Char`; Python string manipulation is
re-implemented on lists so every definition evaluates by kernel reduction.
-/

namespace Ggshield

/-- Modelled from the spec: `ggshield.core.utils.Filemode` (not under `src/`)
is an enum of change kinds FILE, NEW, MODIFY, RENAME, DELETE (spec section 3). -/
inductive Filemode where
  | FILE
  | NEW
  | MODIFY
  | RENAME
  | DELETE
deriving DecidableEq, Repr

/-- Python exception values raised by the embedded code. -/
inductive PyErr where
  | valueError (msg : List Char)
  | indexError
deriving DecidableEq, Repr

deriving instance DecidableEq for Except

/-- Python `str.split(sep)` for a one-character separator: the result always
has one more part than there are separator occurrences. -/
def splitOnChar (sep : Char) : List Char → List (List Char)
  | [] => [[]]
  | c :: cs =>
    if c = sep then [] :: splitOnChar sep cs
    else
      match splitOnChar sep cs with
      | [] => [[c]]
      | h :: t => (c :: h) :: t

/-- Python `str.rstrip(chars)`: drop trailing characters satisfying `p`. -/
def rstripWhile (p : Char → Bool) (l : List Char) : List Char :=
  (l.reverse.dropWhile p).reverse

/-- The six status letters recognised by `_parse_patch_header_line`
(source lines 70-81), in the priority order of its `if` chain. -/
def validStatusLetters : List Char := ['M', 'C', 'A', 'T', 'R', 'D']

/-- Source lines 70-83: the `if`/`elif` chain classifying the status letters
of a raw header line. `"M" in status` is character membership since the
needle is a single character. -/
def classifyStatus (status : List Char) : Option Filemode :=
  if status.contains 'M' then some Filemode.MODIFY
  else if status.contains 'C' then some Filemode.NEW
  else if status.contains 'A' then some Filemode.NEW
  else if status.contains 'T' then some Filemode.NEW
  else if status.contains 'R' then some Filemode.RENAME
  else if status.contains 'D' then some Filemode.DELETE
  else none

/-- Source line 61: `prefix.rsplit(" ", 1)[-1].rstrip("0123456789")` — the
text after the last space of the header prefix, with a trailing numerical
score stripped. -/
def statusOf (pre : List Char) : List Char :=
  rstripWhile Char.isDigit ((splitOnChar ' ' pre).getLastD [])

/-- The `ValueError` message of source line 83:
`f"Can't parse header line {line}: unknown status {status}"`. -/
def errMsg (line status : List Char) : List Char :=
  "Can\x27t parse header line ".data ++ line ++ ": unknown status ".data ++ status

/-- Source lines 37-83, `_parse_patch_header_line`: split the line on NUL,
take the new name when present, classify the status letters of the prefix.
Fewer than two NUL-separated fields is Python's unpacking `ValueError`. -/
def parsePatchHeaderLine (line : List Char) : Except PyErr (List Char × Filemode) :=
  match splitOnChar '\x00' (rstripWhile (· = '\x00') line) with
  | pre :: name :: rest =>
    let name := match rest with
      | r :: _ => r
      | [] => name
    match classifyStatus (statusOf pre) with
    | some fm => Except.ok (name, fm)
    | none => Except.error (PyErr.valueError (errMsg line (statusOf pre)))
  | _ =>
    Except.error
      (PyErr.valueError "not enough values to unpack (expected at least 2, got 1)".data)

/-- Canonical raw header line carrying the given status letters: the shape
produced by `git diff --raw -z` for a single-parent change with one name. -/
def statusLine (status : List Char) : List Char :=
  ":100644 100644 1234567 89abcde ".data ++ status ++ '\x00' :: "name".data

/-- Fixed single-letter filemode table as the spec states it (spec section 8):
M to MODIFY, C/A/T to NEW, R to RENAME, D to DELETE. -/
def letterMode (c : Char) : Filemode :=
  if c = 'M' then Filemode.MODIFY
  else if c = 'C' then Filemode.NEW
  else if c = 'A' then Filemode.NEW
  else if c = 'T' then Filemode.NEW
  else if c = 'R' then Filemode.RENAME
  else Filemode.DELETE

/-- Priority rank of a valid status letter as the spec states it:
Modify, Copy, Add, Type-change, Rename, Delete. -/
def letterPriority (c : Char) : Nat :=
  if c = 'M' then 0
  else if c = 'C' then 1
  else if c = 'A' then 2
  else if c = 'T' then 3
  else if c = 'R' then 4
  else 5

/-- Candidate single status letters: every ASCII letter. -/
def allStatusLetterCandidates : List Char :=
  "ABCDEFGHIJKLMNOPQRSTUVWXYZabcdefghijklmnopqrstuvwxyz".data

/-- Split a list at the first occurrence of the (nonempty) separator
sequence, returning the parts before and after it, or `none` when the
separator does not occur — Python `str.split(sep, 1)`. -/
def splitOnceSeq (sep : List Char) : List Char → Option (List Char × List Char)
  | [] => none
  | c :: cs =>
    if sep.isPrefixOf (c :: cs) then some ([], (c :: cs).drop sep.length)
    else
      match splitOnceSeq sep cs with
      | none => none
      | some (a, b) => some (c :: a, b)

/-- Python `str.split(sep)` for a multi-character separator, via repeated
single splits; the fuel argument bounds the number of splits. -/
def splitAllSeqAux (sep : List Char) : Nat → List Char → List (List Char)
  | 0, l => [l]
  | fuel + 1, l =>
    match splitOnceSeq sep l with
    | none => [l]
    | some (a, b) => a :: splitAllSeqAux sep fuel b

/-- Python `str.split(sep)` for a multi-character, nonempty separator. -/
def splitAllSeq (sep l : List Char) : List (List Char) :=
  splitAllSeqAux sep l.length l

/-- Source line 34: `re.split` on `_RX_HEADER_LINE_SEPARATOR = "[\n\0]:"` —
split wherever a newline or NUL is immediately followed by a colon, both
characters being consumed. -/
def splitHeaderLines : List Char → List (List Char)
  | [] => [[]]
  | [c] => [[c]]
  | c1 :: c2 :: cs =>
    if (c1 = '\n' ∨ c1 = '\x00') ∧ c2 = ':' then [] :: splitHeaderLines cs
    else
      match splitHeaderLines (c2 :: cs) with
      | [] => [[c1]]
      | h :: t => (c1 :: h) :: t

/-- Literal matched by the `^diff ` pattern of source line 451. -/
def diffMark : List Char := "diff ".data

/-- Source line 451, continued scan of `re.split(r"^diff ", rest, MULTILINE)`
after the start of the text: a match is `diff ` right after a newline; the
newline is kept at the end of the preceding part (the `^` is zero-width). -/
def splitDiffAux : Nat → List Char → List (List Char)
  | _, [] => [[]]
  | 0, l => [l]
  | fuel + 1, c :: cs =>
    if c = '\n' ∧ diffMark.isPrefixOf cs then
      ['\n'] :: splitDiffAux fuel (cs.drop 5)
    else
      match splitDiffAux fuel cs with
      | [] => [[c]]
      | h :: t => (c :: h) :: t

/-- Source line 451: `re.split(r"^diff ", rest, flags=re.MULTILINE)` — the
pattern also matches at the very start of the text. -/
def splitDiffLines (l : List Char) : List (List Char) :=
  if diffMark.isPrefixOf l then [] :: splitDiffAux (l.drop 5).length (l.drop 5)
  else splitDiffAux l.length l

/-- Source lines 86-99, `_parse_patch_header`, up to producing the raw
re-prefixed header lines (parsing each line happens lazily at the consumer,
see `zipHeadersDiffs`): prepend a blank line when the header starts with a
colon, split on the header-line separator, skip the first part (commit info
and message), put the consumed `:` back on every line. Indexing `header[0]`
on an empty header is Python's `IndexError`. -/
def headerLines (header : List Char) : Except PyErr (List (List Char)) :=
  match header with
  | [] => Except.error PyErr.indexError
  | c :: _ =>
    let h := if c = ':' then '\n' :: header else header
    Except.ok ((splitHeaderLines h).tail.map (fun l => ':' :: l))

/-- Source line 452: `zip(names_and_modes, diffs)` where `names_and_modes`
is the lazy generator of parsed header lines. `zip` pulls from the generator
first, so when the diffs run out first exactly one extra header line is
still parsed (and may fail); when the header lines run out first the
remaining diffs are dropped. -/
def zipHeadersDiffs :
    List (List Char) → List (List Char) →
      Except PyErr (List ((List Char × Filemode) × List Char))
  | [], _ => Except.ok []
  | h :: _, [] =>
    match parsePatchHeaderLine h with
    | Except.ok _ => Except.ok []
    | Except.error e => Except.error e
  | h :: hs, d :: ds =>
    match parsePatchHeaderLine h with
    | Except.error e => Except.error e
    | Except.ok nm =>
      match zipHeadersDiffs hs ds with
      | Except.error e => Except.error e
      | Except.ok rest => Except.ok ((nm, d) :: rest)

/-- Source lines 458-464: `diff.index("\n@@")` then `diff[end_of_headers + 1 :]`
— the document is everything from the first hunk marker on (the marker's
leading newline excluded); no hunk marker means no content. -/
def hunkDocument : List Char → Option (List Char)
  | [] => none
  | c :: cs =>
    if c = '\n' ∧ ['@', '@'].isPrefixOf cs then some cs
    else hunkDocument cs

/-- `len(document.encode("utf-8"))` of source line 466. -/
def utf8Len (l : List Char) : Nat := l.foldl (fun n c => n + c.utf8Size) 0

/-- `pygitguardian.config.DOCUMENT_SIZE_THRESHOLD_BYTES` (external
collaborator constant): 1 MiB. -/
def DOCUMENT_SIZE_THRESHOLD_BYTES : Nat := 1048576

/-- Source line 467: `file_size > DOCUMENT_SIZE_THRESHOLD_BYTES * 0.90`.
`0.90 * 1048576 = 943718.4` is not an integer and the rounding error of the
double-precision product (about `1e-10`) never reaches the next integer, so
for every integer size the float comparison coincides with the exact
rational one written here. -/
def oversizeDoc (fileSize : Nat) : Bool :=
  decide (9 * DOCUMENT_SIZE_THRESHOLD_BYTES < 10 * fileSize)

/-- Source lines 241-246, `CommitFile`: a parsed per-change file whose
document and filemode are fixed at construction. -/
structure CommitFile where
  document : List Char
  filename : List Char
  filemode : Filemode
deriving DecidableEq, Repr

/-- Source lines 452-471, the per-file body of the `_parse_patch` loop:
exclusion check, hunk-marker search, size guard, empty-document guard. -/
def processPair (excluded : List Char → Bool) (nm : List Char × Filemode)
    (diff : List Char) : Option CommitFile :=
  if excluded nm.1 then none
  else
    match hunkDocument diff with
    | none => none
    | some document =>
      if oversizeDoc (utf8Len document) then none
      else if document.isEmpty then none
      else some ⟨document, nm.1, nm.2⟩

/-- Literal separator of source line 442: `patch.split("\0commit ")`. -/
def commitSep : List Char := "\x00commit ".data

/-- Literal separator of source line 443: `commit.split("\0diff ", 1)`. -/
def diffSep : List Char := "\x00diff ".data

/-- Source lines 442-471 restricted to one sub-patch: no `\0diff ` separator
means no file changes; otherwise parse the header lines, split the body into
per-file diffs, pair them up and extract each document. -/
def parseSubPatch (excluded : List Char → Bool) (commit : List Char) :
    Except PyErr (List CommitFile) :=
  match splitOnceSeq diffSep commit with
  | none => Except.ok []
  | some (header, rest) =>
    match headerLines header with
    | Except.error e => Except.error e
    | Except.ok hls =>
      match zipHeadersDiffs hls (splitDiffLines rest) with
      | Except.error e => Except.error e
      | Except.ok pairs =>
        Except.ok (pairs.filterMap (fun p => processPair excluded p.1 p.2))

/-- Iterate `parseSubPatch` over the sub-patches, concatenating the yielded
files; a raised exception discards everything (the caller consumes the
generator with `list(...)`). -/
def parseCommits (excluded : List Char → Bool) :
    List (List Char) → Except PyErr (List CommitFile)
  | [] => Except.ok []
  | c :: cs =>
    match parseSubPatch excluded c with
    | Except.error e => Except.error e
    | Except.ok fs =>
      match parseCommits excluded cs with
      | Except.error e => Except.error e
      | Except.ok rest => Except.ok (fs ++ rest)

/-- Source lines 431-471, `_parse_patch`: split the patch on the per-commit
separator and process each sub-patch in order. The exclusion predicate
stands for the external `is_filepath_excluded` collaborator. -/
def parsePatch (excluded : List Char → Bool) (patch : List Char) :
    Except PyErr (List CommitFile) :=
  parseCommits excluded (splitAllSeq commitSep patch)

/-- The part of a `pygitguardian.models.ScanResult` the collector looks at:
its policy breaks. `has_policy_breaks` is their non-emptiness. -/
structure Scanned where
  policyBreaks : List String
deriving DecidableEq, Repr

/-- Source lines 110-119, `Result`: content, filemode, filename and per-file
scan outcome of a violation-bearing file. -/
structure Result where
  content : String
  filemode : Filemode
  filename : String
  scan : Scanned
deriving DecidableEq, Repr

/-- Source lines 122-124, `Error`: the `(filename, filemode)` pairs of a
failed batch plus a description. -/
structure Error where
  files : List (String × Filemode)
  description : String
deriving DecidableEq, Repr

/-- Source lines 127-139, `Results`: ordered results and errors of a scan. -/
structure Results where
  results : List Result
  errors : List Error
deriving DecidableEq, Repr

/-- Source lines 141-145, `Results.from_exception`: a failure-only `Results`
with one file-less `Error` carrying the exception text. -/
def Results.fromException (excText : String) : Results :=
  { results := [], errors := [{ files := [], description := excText }] }

/-- Source lines 148-177, `ScanCollection`: a recursive report node. The
`iac_result` and `extra_info` fields play no role in the embedded accessors
and are omitted. -/
inductive ScanCollection where
  | mk (id : String) (type : String) (results : Option Results)
      (scans : Option (List ScanCollection)) (optionalHeader : Option String)

/-- Field accessor for `ScanCollection.results`. -/
def ScanCollection.results : ScanCollection → Option Results
  | .mk _ _ r _ _ => r

/-- Field accessor for `ScanCollection.scans`. -/
def ScanCollection.scans : ScanCollection → Option (List ScanCollection)
  | .mk _ _ _ s _ => s

/-- Source lines 173-174: `if self.results: yield from self.results.results`.
A present `Results` dataclass instance is always truthy, even when empty, so
only `None` contributes nothing. -/
def ownResults (c : ScanCollection) : List Result :=
  match c.results with
  | some r => r.results
  | none => []

/-- Source line 177 iterated over the children: `scan.results.results` reads
the `results` attribute of each child unconditionally, which is Python's
`AttributeError` (modelled as `none`) when a child's `results` is `None`. -/
def childrenOwnResults : List ScanCollection → Option (List Result)
  | [] => some []
  | s :: ss =>
    match s.results with
    | none => none
    | some r => (childrenOwnResults ss).map (fun l => r.results ++ l)

/-- Source lines 171-177, `ScanCollection.get_all_results`: this node's own
results, then — when `self.scans` is truthy, i.e. a nonempty list — each
direct child's own results. `none` models the run raising. -/
def ScanCollection.getAllResults (c : ScanCollection) : Option (List Result) :=
  match c.scans with
  | some (s :: ss) => (childrenOwnResults (s :: ss)).map (fun l => ownResults c ++ l)
  | _ => some (ownResults c)

/-- Source lines 157-161, `ScanCollection.scans_with_results`: the children
whose `results` attribute is truthy. A `Results` dataclass instance is
always truthy, so the test is exactly presence (`is not None`). -/
def ScanCollection.scansWithResults (c : ScanCollection) : List ScanCollection :=
  match c.scans with
  | some ss => ss.filter (fun x => x.results.isSome)
  | none => []

/-- Source lines 180-213, `File` (scanner-side view): decoded document text,
filename and filemode. -/
structure File where
  document : String
  filename : String
  filemode : Filemode
deriving DecidableEq, Repr

/-- Result of `ast.literal_eval` as far as `handle_scan_chunk_error` looks
at it: a list (with recursively truthy-or-not elements) or some other
literal with its truthiness. -/
inductive PyLiteral where
  | pyList (elems : List PyLiteral)
  | atom (truthy : Bool)

/-- Python truthiness of a parsed literal. -/
def PyLiteral.truthy : PyLiteral → Bool
  | .pyList l => !l.isEmpty
  | .atom b => b

/-- Exceptions escaping `handle_scan_chunk_error` / `Scanner._collect_results`. -/
inductive RunError where
  | usageError (msg : String)
  | clickException (msg : String)
  | indexError
deriving DecidableEq, Repr

/-- Source lines 572-578: the loop `for i, inner_detail in enumerate(details)`
— every truthy entry echoes a line mentioning `chunk[i].filename`, and that
index raises `IndexError` when it falls outside the chunk. -/
def displayDetails (chunk : List File) : Nat → List PyLiteral → Except RunError Unit
  | _, [] => Except.ok ()
  | i, d :: ds =>
    if d.truthy then
      if i < chunk.length then displayDetails chunk (i + 1) ds
      else Except.error RunError.indexError
    else displayDetails chunk (i + 1) ds

/-- Source lines 548-588, `handle_scan_chunk_error`: status 401 raises
`click.UsageError`, an absent status raises `click.ClickException`;
otherwise the detail text is `literal_eval`-ed (the `parsedDetail` argument
stands for that call's outcome, `none` meaning it raised) and a nonempty
list triggers the per-file display loop; every other shape only prints a
chunk-level diagnostic. -/
def handleScanChunkError (statusCode : Option Nat) (detailText : String)
    (parsedDetail : Option PyLiteral) (chunk : List File) : Except RunError Unit :=
  if statusCode = some 401 then Except.error (RunError.usageError detailText)
  else if statusCode = none then
    Except.error
      (RunError.clickException ("Error scanning, network error occurred: " ++ detailText))
  else
    match parsedDetail with
    | some (PyLiteral.pyList (d :: ds)) => displayDetails chunk 0 (d :: ds)
    | _ => Except.ok ()

/-- A completed future's payload: `Detail` (non-success API response, with
its nullable status code and detail text) or a successful multi-scan with
one `ScanResult` per document. -/
inductive ApiResponse where
  | detail (statusCode : Option Nat) (text : String)
  | scans (scanResults : List Scanned)

/-- A batch's outcome: either the submission raised (transport exception
text) or it produced an API response. -/
abbrev BatchOutcome := Except String ApiResponse

/-- Source lines 388-401, the per-file loop of a successful batch: zip the
chunk with the scan results, apply the ignore filters (the `applyFilters`
argument stands for `remove_ignored_from_result` composed with
`remove_results_from_ignore_detectors`), keep a `Result` exactly for files
with remaining policy breaks. -/
def batchResults (applyFilters : Scanned → Scanned) (chunk : List File)
    (srs : List Scanned) : List Result :=
  (chunk.zip srs).filterMap fun fs =>
    let scanned := applyFilters fs.2
    if scanned.policyBreaks.isEmpty then none
    else some ⟨fs.1.document, fs.1.filemode, fs.1.filename, scanned⟩

/-- Source lines 357-404, `Scanner._collect_results`, over the batches in
completion order. A raised submission synthesizes
`Detail(detail=str(exception))` — whose `status_code` defaults to 500 in
`pygitguardian` — records one whole-batch `Error`, and still routes the
non-success outcome through `handle_scan_chunk_error`; a non-success
response is routed there without recording an `Error`; a success contributes
its per-file results. The cache purge/save/add calls are external side
effects with no influence on the returned `Results` and are not modelled. -/
def collectResults (litEval : String → Option PyLiteral)
    (applyFilters : Scanned → Scanned) :
    List (List File × BatchOutcome) → Except RunError Results
  | [] => Except.ok { results := [], errors := [] }
  | (chunk, outcome) :: rest =>
    match outcome with
    | Except.error excText =>
      match handleScanChunkError (some 500) excText (litEval excText) chunk with
      | Except.error e => Except.error e
      | Except.ok _ =>
        match collectResults litEval applyFilters rest with
        | Except.error e => Except.error e
        | Except.ok r =>
          Except.ok
            { results := r.results
              errors :=
                ⟨chunk.map (fun f => (f.filename, f.filemode)), excText⟩ :: r.errors }
    | Except.ok (ApiResponse.detail sc txt) =>
      match handleScanChunkError sc txt (litEval txt) chunk with
      | Except.error e => Except.error e
      | Except.ok _ => collectResults litEval applyFilters rest
    | Except.ok (ApiResponse.scans srs) =>
      match collectResults litEval applyFilters rest with
      | Except.error e => Except.error e
      | Except.ok r =>
        Except.ok { results := batchResults applyFilters chunk srs ++ r.results
                    errors := r.errors }

/-- Source lines 425-428, `CommitInformation`. -/
structure CommitInformation where
  author : String
  email : String
  date : String
deriving DecidableEq, Repr

/-- Source lines 479-486, the mutable state of a `Commit` instance:
`_patch` starts as `None`, `_files` starts as the EMPTY LIST (not `None`),
`_info` starts as `None`. -/
structure CommitState where
  sha : Option String
  patchCache : Option (List Char)
  filesCache : List CommitFile
  infoCache : Option CommitInformation

/-- A fresh `Commit(sha)`. -/
def initCommit (sha : Option String) : CommitState :=
  { sha := sha, patchCache := none, filesCache := [], infoCache := none }

/-- Source lines 509-524, the `patch` property: run git (`git show <sha>` or
`git diff --cached`, modelled by the `git` argument from the optional sha)
only when `_patch is None`, then memoize. The returned `Nat` counts external
process invocations performed by this read. -/
def readPatchStep (git : Option String → List Char) (s : CommitState) :
    List Char × CommitState × Nat :=
  match s.patchCache with
  | some p => (p, s, 0)
  | none =>
    let p := git s.sha
    (p, { s with patchCache := some p }, 1)

/-- Source lines 526-531 with 533-542, the `files` property: when `_files`
is FALSY (the empty list), realize `list(self.get_files())`, i.e. fetch the
patch and run `_parse_patch`; a parse failure is wrapped in
`PatchParseError` and leaves `_files` unassigned. The counters are (git
invocations, parse realizations) performed by this read. -/
def readFilesStep (git : Option String → List Char) (excluded : List Char → Bool)
    (s : CommitState) :
    Except PyErr (List CommitFile) × CommitState × (Nat × Nat) :=
  if s.filesCache.isEmpty then
    match readPatchStep git s with
    | (p, s1, g) =>
      match parsePatch excluded p with
      | Except.ok fs => (Except.ok fs, { s1 with filesCache := fs }, (g, 1))
      | Except.error e => (Except.error e, s1, (g, 1))
  else (Except.ok s.filesCache, s, (0, 0))

/-- Source lines 488-498, the `info` property: when `_info is None`, search
the patch with `REGEX_HEADER_INFO` (the external regex is modelled by the
`extractInfo` argument), falling back to the `("unknown", "", "")` sentinel,
then memoize. The returned `Nat` counts git invocations. -/
def readInfoStep (git : Option String → List Char)
    (extractInfo : List Char → Option CommitInformation) (s : CommitState) :
    CommitInformation × CommitState × Nat :=
  match s.infoCache with
  | some i => (i, s, 0)
  | none =>
    match readPatchStep git s with
    | (p, s1, g) =>
      let i := (extractInfo p).getD ⟨"unknown", "", ""⟩
      (i, { s1 with infoCache := some i }, g)

/-- One accessor read on a `Commit`. -/
inductive ReadOp where
  | patchRead
  | filesRead
  | infoRead
deriving DecidableEq, Repr

/-- Dispatch one accessor read, returning the new state and the (git
invocations, parse realizations) it performed. -/
def commitReadStep (git : Option String → List Char) (excluded : List Char → Bool)
    (extractInfo : List Char → Option CommitInformation) :
    ReadOp → CommitState → CommitState × (Nat × Nat)
  | ReadOp.patchRead, s =>
    match readPatchStep git s with
    | (_, s1, g) => (s1, (g, 0))
  | ReadOp.filesRead, s =>
    match readFilesStep git excluded s with
    | (_, s1, c) => (s1, c)
  | ReadOp.infoRead, s =>
    match readInfoStep git extractInfo s with
    | (_, s1, g) => (s1, (g, 0))

/-- Run a finite sequence of accessor reads, accumulating the (git
invocations, parse realizations) counters. -/
def runReads (git : Option String → List Char) (excluded : List Char → Bool)
    (extractInfo : List Char → Option CommitInformation) :
    List ReadOp → CommitState → CommitState × (Nat × Nat)
  | [], s => (s, (0, 0))
  | op :: ops, s =>
    match commitReadStep git excluded extractInfo op s with
    | (s1, c1) =>
      match runReads git excluded extractInfo ops s1 with
      | (s2, c2) => (s2, (c1.1 + c2.1, c1.2 + c2.2))

/-- Concatenation of the images of a list, in order. -/
def concatMap (f : α → List β) : List α → List β
  | [] => []
  | a :: as => f a ++ concatMap f as

/-- Whether an `Except` value is a success. -/
def exceptIsOk : Except ε α → Bool
  | Except.ok _ => true
  | Except.error _ => false

/-! Concrete fixtures used by witnesses and counterexamples. -/

/-- A scan outcome carrying one policy break. -/
def scanOneBreak : Scanned := ⟨["break1"]⟩

/-- Concrete result values. -/
def resA : Result := ⟨"contentA", Filemode.FILE, "a.txt", scanOneBreak⟩

def resB : Result := ⟨"contentB", Filemode.FILE, "b.txt", scanOneBreak⟩

def resC : Result := ⟨"contentC", Filemode.FILE, "c.txt", scanOneBreak⟩

/-- A child node whose `results` attribute is `None`. -/
def childNoResults : ScanCollection := ScanCollection.mk "c1" "commit" none none none

/-- A parent with one result of its own and one `results=None` child. -/
def nodeWithBareChild : ScanCollection :=
  ScanCollection.mk "p1" "commit" (some ⟨[resA], []⟩) (some [childNoResults]) none

/-- A grandchild carrying one result. -/
def grandChild : ScanCollection :=
  ScanCollection.mk "gc" "commit" (some ⟨[resC], []⟩) none none

/-- A child carrying one result and one grandchild. -/
def childWithGrandChild : ScanCollection :=
  ScanCollection.mk "c2" "commit" (some ⟨[resB], []⟩) (some [grandChild]) none

/-- A three-level tree: parent, child, grandchild, each with one result. -/
def threeLevelNode : ScanCollection :=
  ScanCollection.mk "p2" "commit" (some ⟨[resA], []⟩) (some [childWithGrandChild]) none

/-- A child whose `Results` is present but has no results and no errors. -/
def childEmptyResults : ScanCollection :=
  ScanCollection.mk "c3" "commit" (some ⟨[], []⟩) none none

/-- A parent whose single child carries an empty `Results`. -/
def nodeWithEmptyChild : ScanCollection :=
  ScanCollection.mk "p3" "commit" none (some [childEmptyResults]) none

/-- Two small child nodes with one result each, for the C1 witness. -/
def witChildA : ScanCollection := ScanCollection.mk "wa" "commit" (some ⟨[resB], []⟩) none none

def witChildB : ScanCollection := ScanCollection.mk "wb" "commit" (some ⟨[resC], []⟩) none none

/-- Parent of the two witness children. -/
def witParent : ScanCollection :=
  ScanCollection.mk "wp" "commit" (some ⟨[resA], []⟩) (some [witChildA, witChildB]) none

/-- Concrete scanner-side files. -/
def fileX : File := ⟨"docX", "x.txt", Filemode.FILE⟩

def fileY : File := ⟨"docY", "y.txt", Filemode.FILE⟩

/-- `ast.literal_eval("[1, 1]")` is the two-element list `[1, 1]` whose
entries are truthy; this function records that one fact, which is all the
counterexamples evaluate it on. -/
def litEvalTwoOnes (s : String) : Option PyLiteral :=
  if s = "[1, 1]" then some (PyLiteral.pyList [PyLiteral.atom true, PyLiteral.atom true])
  else none

/-- A patch whose raw header announces two files but whose body carries a
single per-file diff. -/
def patchTwoHeadersOneBody : List Char :=
  ("commit info\n:100644 100644 a b M\x00file1\x00:100644 100644 a b M\x00file2\x00\x00diff --git a/file1 b/file1\nindex 123..456 100644\n@@ -1 +1 @@\n+secret\n").data

/-- A patch whose raw header announces one file but whose body carries two
per-file diffs. -/
def patchOneHeaderTwoBodies : List Char :=
  ("commit info\n:100644 100644 a b M\x00file1\x00\x00diff --git a/file1 b/file1\nindex 1\n@@ -1 +1 @@\n+s1\ndiff --git a/file2 b/file2\nindex 2\n@@ -1 +1 @@\n+s2\n").data

/-- Git output for a commit touching no files: no `\0diff ` separator, so
the parse yields the empty file list. -/
def emptyCommitGit : Option String → List Char :=
  fun _ => "commit deadbeef\nAuthor: A <a@b.c>\nDate: today\n\n    message\n".data

/-! Theorems. -/

/-- Claim C2: for every raw patch header line whose status field is a
combination of two valid status letters, the parsed filemode is the one of
the higher-priority letter under Modify, Copy, Add, Type-change, Rename,
Delete (first match wins); in particular whenever one of the two letters is
`M` the result is `MODIFY` regardless of the other. The second conjunct
states first-match-in-priority-order for an arbitrary status string. -/
theorem claim_C2_theorem :
    (∀ c1 ∈ validStatusLetters, ∀ c2 ∈ validStatusLetters,
      parsePatchHeaderLine (statusLine [c1, c2])
        = Except.ok ("name".data,
            letterMode (if letterPriority c1 ≤ letterPriority c2 then c1 else c2))
      ∧ ((c1 = 'M' ∨ c2 = 'M') →
          parsePatchHeaderLine (statusLine [c1, c2])
            = Except.ok ("name".data, Filemode.MODIFY)))
    ∧ ∀ status : List Char,
        classifyStatus status
          = (validStatusLetters.find? (fun v => status.contains v)).map letterMode := by
  constructor
  · decide
  · intro s
    by_cases hM : 'M' ∈ s <;> by_cases hC : 'C' ∈ s <;>
      by_cases hA : 'A' ∈ s <;> by_cases hT : 'T' ∈ s <;>
      by_cases hR : 'R' ∈ s <;> by_cases hD : 'D' ∈ s <;>
      simp [classifyStatus, validStatusLetters, List.find?, letterMode, hM, hC, hA, hT, hR, hD]

/-- Witness for claim C2: a file deleted on one parent and modified on the
other parses as `MODIFY`. -/
theorem claim_C2_witness :
    parsePatchHeaderLine (statusLine ['D', 'M'])
      = Except.ok ("name".data, Filemode.MODIFY) :=
  (claim_C2_theorem.1 'D' (by decide) 'M' (by decide)).2 (Or.inr rfl)

/-- Claim C3: a single valid status letter parses to the fixed table
M to MODIFY, C/A/T to NEW, R to RENAME, D to DELETE; any other letter makes
the parser fail with a `ValueError` whose message names the offending
line. -/
theorem claim_C3_theorem :
    ∀ c, c ∈ allStatusLetterCandidates →
      (c ∈ validStatusLetters →
        parsePatchHeaderLine (statusLine [c]) = Except.ok ("name".data, letterMode c))
      ∧ (c ∉ validStatusLetters →
          parsePatchHeaderLine (statusLine [c])
            = Except.error (PyErr.valueError (errMsg (statusLine [c]) [c]))
          ∧ statusLine [c] <:+: errMsg (statusLine [c]) [c]) := by
  have hall : ∀ c ∈ allStatusLetterCandidates,
      (c ∈ validStatusLetters →
        parsePatchHeaderLine (statusLine [c]) = Except.ok ("name".data, letterMode c))
      ∧ (c ∉ validStatusLetters →
          parsePatchHeaderLine (statusLine [c])
            = Except.error (PyErr.valueError (errMsg (statusLine [c]) [c]))) := by decide
  intro c hc
  refine ⟨(hall c hc).1, fun hn => ⟨(hall c hc).2 hn, ?_⟩⟩
  exact ⟨"Can\x27t parse header line ".data, ": unknown status ".data ++ [c], rfl⟩

/-- Witness for claim C3: `D` maps to `DELETE` by the table, and the
unrecognised letter `X` produces the `ValueError` naming the line. -/
theorem claim_C3_witness :
    parsePatchHeaderLine (statusLine ['D']) = Except.ok ("name".data, letterMode 'D')
    ∧ parsePatchHeaderLine (statusLine ['X'])
        = Except.error (PyErr.valueError (errMsg (statusLine ['X']) ['X'])) := by
  have h1 := claim_C3_theorem 'D' (by decide)
  have h2 := claim_C3_theorem 'X' (by decide)
  exact ⟨h1.1 (by decide), (h2.2 (by decide)).1⟩

/-- Claim C6: the skip condition for an extracted document is strictly
greater than 0.90 times the single-document size threshold: the largest
integer byte length not above 90 percent of the threshold is kept, one byte
more is skipped. -/
theorem claim_C6_theorem :
    oversizeDoc (9 * DOCUMENT_SIZE_THRESHOLD_BYTES / 10) = false
    ∧ oversizeDoc (9 * DOCUMENT_SIZE_THRESHOLD_BYTES / 10 + 1) = true
    ∧ ∀ n : Nat, oversizeDoc n = false ↔ 10 * n ≤ 9 * DOCUMENT_SIZE_THRESHOLD_BYTES := by
  refine ⟨by decide, by decide, fun n => ?_⟩
  simp [oversizeDoc]

/-- Claim C10: `Results.from_exception` builds a `Results` with no results
and exactly one `Error` that attributes no files and carries the exception
text. -/
theorem claim_C10_theorem :
    ∀ excText : String,
      (Results.fromException excText).results = []
      ∧ (Results.fromException excText).errors.length = 1
      ∧ (Results.fromException excText).errors = [{ files := [], description := excText }] :=
  fun _ => ⟨rfl, rfl, rfl⟩

/-- When every child carries a `Results`, iterating `scan.results.results`
concatenates the children's own results in list order. -/
theorem childrenOwnResults_all_some :
    ∀ ss : List ScanCollection,
      (∀ s ∈ ss, (ScanCollection.results s).isSome = true) →
      childrenOwnResults ss = some (concatMap ownResults ss) := by
  intro ss
  induction ss with
  | nil => intro _; rfl
  | cons s ss ih =>
    intro h
    obtain ⟨r, hr⟩ := Option.isSome_iff_exists.mp (h s (by simp))
    simp [childrenOwnResults, hr, ih (fun x hx => h x (by simp [hx])), concatMap,
      ownResults]

/-- A child whose `results` attribute is `None` makes the iteration fail. -/
theorem childrenOwnResults_has_none :
    ∀ ss : List ScanCollection,
      (∃ s ∈ ss, ScanCollection.results s = none) → childrenOwnResults ss = none := by
  intro ss
  induction ss with
  | nil => rintro ⟨s, hs, _⟩; simp at hs
  | cons s ss ih =>
    rintro ⟨x, hx, hxr⟩
    rcases List.mem_cons.mp hx with h | h
    · subst h; simp [childrenOwnResults, hxr]
    · cases hr : ScanCollection.results s with
      | none => simp [childrenOwnResults, hr]
      | some r => simp [childrenOwnResults, hr, ih ⟨x, h, hxr⟩]

/-- Claim C1 (amended): for a node with a nonempty `scans` list,
`get_all_results` yields the node's own results followed by each DIRECT
child's own results in list order, provided every child's `Results` is
present; grandchildren are not traversed, and a child whose `Results` is
absent makes `get_all_results` raise (`AttributeError`, modelled `none`). -/
theorem claim_C1_theorem :
    ∀ (c : ScanCollection) (ss : List ScanCollection),
      c.scans = some ss → ss ≠ [] →
      ((∀ s ∈ ss, (ScanCollection.results s).isSome = true) →
        c.getAllResults = some (ownResults c ++ concatMap ownResults ss))
      ∧ ((∃ s ∈ ss, ScanCollection.results s = none) → c.getAllResults = none) := by
  intro c ss hscans hne
  obtain ⟨id, ty, r, sc, oh⟩ := c
  simp only [ScanCollection.scans] at hscans
  subst hscans
  cases ss with
  | nil => exact absurd rfl hne
  | cons s ss =>
    constructor
    · intro hall
      simp [ScanCollection.getAllResults, ScanCollection.scans,
        childrenOwnResults_all_some _ hall]
    · intro hex
      simp [ScanCollection.getAllResults, ScanCollection.scans,
        childrenOwnResults_has_none _ hex]

/-- Witness for claim C1: a parent with two result-bearing children yields
its own result, then the children's, in order. -/
theorem claim_C1_witness :
    ScanCollection.getAllResults witParent = some [resA, resB, resC] := by
  have h := (claim_C1_theorem witParent [witChildA, witChildB] rfl (by simp)).1 (by
    intro s hs
    simp only [List.mem_cons, List.mem_singleton] at hs
    rcases hs with rfl | rfl | hs
    · rfl
    · rfl
    · simp at hs)
  exact h.trans (by decide)

/-- Counterexample for claim C1 as stated: a `results=None` child makes
`get_all_results` raise instead of yielding the subtree's results, and a
grandchild's results are NOT yielded (the traversal is one level deep, not
a depth-concatenation over the whole subtree). -/
theorem claim_C1_counterexample :
    ScanCollection.getAllResults nodeWithBareChild = none
    ∧ ScanCollection.getAllResults threeLevelNode = some [resA, resB]
    ∧ resC ∉ [resA, resB] :=
  ⟨rfl, rfl, by decide⟩

/-- Claim C7 (amended): `scans_with_results` returns exactly the children
whose `Results` attribute is PRESENT (not `None`), regardless of whether
that `Results` holds any result or error. -/
theorem claim_C7_theorem :
    ∀ (c s : ScanCollection),
      s ∈ c.scansWithResults ↔
        ∃ ss, c.scans = some ss ∧ s ∈ ss ∧ (ScanCollection.results s).isSome = true := by
  intro c s
  obtain ⟨id, ty, r, sc, oh⟩ := c
  cases sc with
  | none => simp [ScanCollection.scansWithResults, ScanCollection.scans]
  | some ss =>
    simp [ScanCollection.scansWithResults, ScanCollection.scans, List.mem_filter]

/-- Counterexample for claim C7 as stated: a child carrying a `Results`
with empty results and empty errors is nevertheless returned by
`scans_with_results` (a dataclass instance is truthy even when empty). -/
theorem claim_C7_counterexample :
    ScanCollection.scansWithResults nodeWithEmptyChild = [childEmptyResults]
    ∧ ScanCollection.results childEmptyResults = some ⟨[], []⟩
    ∧ ([childEmptyResults] : List ScanCollection) ≠ [] :=
  ⟨rfl, rfl, by simp⟩

/-- The per-file detail display loop returns normally when the detail list
cannot index past the chunk. -/
theorem displayDetails_ok_of_le (chunk : List File) :
    ∀ (l : List PyLiteral) (i : Nat), i + l.length ≤ chunk.length →
      displayDetails chunk i l = Except.ok () := by
  intro l
  induction l with
  | nil => intro i _; rfl
  | cons d ds ih =>
    intro i h
    have hi : i < chunk.length := by simp at h; omega
    have hrec := ih (i + 1) (by simp at h ⊢; omega)
    by_cases hd : d.truthy = true <;> simp [displayDetails, hd, hi, hrec]

/-- The parsed detail, when it is a list, is no longer than the batch. -/
def parsedFits (parsed : Option PyLiteral) (n : Nat) : Prop :=
  ∀ l, parsed = some (PyLiteral.pyList l) → l.length ≤ n

/-- Claim C5 (amended): `handle_scan_chunk_error` raises exactly on status
401 (`UsageError`) and on an absent status (`ClickException`); for every
other status it returns normally PROVIDED the detail text does not
`literal_eval` to a list longer than the batch — a longer list with a
truthy entry past the batch raises `IndexError` from `chunk[i]`. -/
theorem claim_C5_theorem :
    ∀ (statusCode : Option Nat) (detailText : String)
      (parsedDetail : Option PyLiteral) (chunk : List File),
      parsedFits parsedDetail chunk.length →
      handleScanChunkError statusCode detailText parsedDetail chunk =
        (if statusCode = some 401 then Except.error (RunError.usageError detailText)
         else if statusCode = none then
           Except.error (RunError.clickException
             ("Error scanning, network error occurred: " ++ detailText))
         else Except.ok ()) := by
  intro sc txt parsed chunk hfits
  by_cases h1 : sc = some 401
  · simp [handleScanChunkError, h1]
  · by_cases h2 : sc = none
    · simp [handleScanChunkError, h1, h2]
    · simp only [handleScanChunkError, h1, h2, if_false, if_neg]
      cases parsed with
      | none => simp
      | some p =>
        cases p with
        | atom b => simp
        | pyList l =>
          cases l with
          | nil => simp
          | cons d ds =>
            simpa using displayDetails_ok_of_le chunk (d :: ds) 0
              (by simpa using hfits (d :: ds) rfl)

/-- Witness for claim C5: a 500 response whose detail does not parse as a
list returns normally. -/
theorem claim_C5_witness :
    handleScanChunkError (some 500) "boom" none [fileX] = Except.ok () := by
  have h := claim_C5_theorem (some 500) "boom" none [fileX] (fun l hl => by cases hl)
  simpa using h

/-- Counterexample for claim C5 as stated: a 500 response whose detail text
`"[1, 1]"` parses as a two-element truthy list against a one-file batch
raises `IndexError` instead of returning normally. -/
theorem claim_C5_counterexample :
    handleScanChunkError (some 500) "[1, 1]" (litEvalTwoOnes "[1, 1]") [fileX]
      = Except.error RunError.indexError := by decide

/-- Collecting only successful batches yields their results concatenated in
completion order and no errors. -/
theorem collectResults_all_success (litEval : String → Option PyLiteral)
    (filt : Scanned → Scanned) :
    ∀ bs : List (List File × List Scanned),
      collectResults litEval filt
        (bs.map (fun b => (b.1, Except.ok (ApiResponse.scans b.2))))
        = Except.ok { results := concatMap (fun b => batchResults filt b.1 b.2) bs
                      errors := [] } := by
  intro bs
  induction bs with
  | nil => rfl
  | cons b bs ih => simp [collectResults, ih, concatMap]

/-- Claim C4 (amended): when exactly one batch's submission raises a
transport exception and every other batch succeeds, `_collect_results`
returns a `Results` whose errors are exactly one `Error` listing every
(filename, filemode) of the failed batch with the exception's text, whose
results contain nothing from the failed batch and the usual entries from
every other batch in completion order — PROVIDED the synthesized 500
`Detail` passes `handle_scan_chunk_error` without raising (i.e. the
exception text does not `literal_eval` to an over-long truthy list). -/
theorem claim_C4_theorem :
    ∀ (litEval : String → Option PyLiteral) (filt : Scanned → Scanned)
      (pre post : List (List File × List Scanned)) (chunk : List File)
      (excText : String),
      handleScanChunkError (some 500) excText (litEval excText) chunk = Except.ok () →
      collectResults litEval filt
        (pre.map (fun b => (b.1, Except.ok (ApiResponse.scans b.2)))
          ++ (chunk, Except.error excText)
            :: post.map (fun b => (b.1, Except.ok (ApiResponse.scans b.2))))
        = Except.ok
            { results := concatMap (fun b => batchResults filt b.1 b.2) pre
                ++ concatMap (fun b => batchResults filt b.1 b.2) post
              errors := [⟨chunk.map (fun f => (f.filename, f.filemode)), excText⟩] } := by
  intro litEval filt pre post chunk excText hok
  induction pre with
  | nil =>
    simp [collectResults, hok, collectResults_all_success litEval filt post, concatMap]
  | cons b pre ih =>
    simp [collectResults, ih, concatMap, List.append_assoc]

/-- Witness for claim C4: one successful batch then one raising batch. -/
theorem claim_C4_witness :
    collectResults (fun _ => none) id
      [([fileY], Except.ok (ApiResponse.scans [scanOneBreak])),
        ([fileX], Except.error "boom")]
      = Except.ok
          { results := [⟨"docY", Filemode.FILE, "y.txt", scanOneBreak⟩]
            errors := [⟨[("x.txt", Filemode.FILE)], "boom"⟩] } := by
  have h := claim_C4_theorem (fun _ => none) id [([fileY], [scanOneBreak])] [] [fileX]
    "boom" rfl
  exact h.trans (by decide)

/-- Counterexample for claim C4 as stated: a transport exception whose text
is the list literal `"[1, 1]"`, for a one-file batch, aborts the collection
with `IndexError`, so no `Results` is returned at all. -/
theorem claim_C4_counterexample :
    collectResults litEvalTwoOnes id [([fileX], Except.error "[1, 1]")]
      = Except.error RunError.indexError := by decide

/-- A successful lazy zip of header lines against diff bodies truncates to
the shorter side. -/
theorem zipHeadersDiffs_ok_length :
    ∀ hls dls : List (List Char),
      (∀ l ∈ hls, exceptIsOk (parsePatchHeaderLine l) = true) →
      ∃ ps, zipHeadersDiffs hls dls = Except.ok ps
        ∧ ps.length = min hls.length dls.length := by
  intro hls
  induction hls with
  | nil => intro dls _; exact ⟨[], rfl, by simp⟩
  | cons h hs ih =>
    intro dls hall
    have hh := hall h (by simp)
    obtain ⟨v, hv⟩ : ∃ v, parsePatchHeaderLine h = Except.ok v := by
      cases e : parsePatchHeaderLine h with
      | ok v => exact ⟨v, rfl⟩
      | error err => rw [e] at hh; simp [exceptIsOk] at hh
    cases dls with
    | nil => exact ⟨[], by simp [zipHeadersDiffs, hv], by simp⟩
    | cons d ds =>
      obtain ⟨ps, hps, hlen⟩ := ih ds (fun l hl => hall l (by simp [hl]))
      refine ⟨(v, d) :: ps, by simp [zipHeadersDiffs, hv, hps], ?_⟩
      simp only [List.length_cons, hlen]
      omega

set_option maxRecDepth 100000 in
/-- Claim C9: when the parsed header entries and the body segments of a
sub-patch differ in number, the pairing silently truncates to the shorter
side — no error, and the unmatched entries or segments produce no
`CommitFile`. Shown in general for the zip (given each header line parses)
and end-to-end on two concrete patches. -/
theorem claim_C9_theorem :
    (∀ hls dls : List (List Char),
      (∀ l ∈ hls, exceptIsOk (parsePatchHeaderLine l) = true) →
      ∃ ps, zipHeadersDiffs hls dls = Except.ok ps
        ∧ ps.length = min hls.length dls.length)
    ∧ parsePatch (fun _ => false) patchTwoHeadersOneBody
        = Except.ok [⟨"@@ -1 +1 @@\n+secret\n".data, "file1".data, Filemode.MODIFY⟩]
    ∧ parsePatch (fun _ => false) patchOneHeaderTwoBodies
        = Except.ok [⟨"@@ -1 +1 @@\n+s1\n".data, "file1".data, Filemode.MODIFY⟩] :=
  ⟨zipHeadersDiffs_ok_length, by decide, by decide⟩

/-- Witness for claim C9: one valid header line against no diff bodies
zips to the empty pairing without error. -/
theorem claim_C9_witness :
    ∃ ps, zipHeadersDiffs [statusLine ['M']] [] = Except.ok ps ∧ ps.length = 0 := by
  obtain ⟨ps, h1, h2⟩ := claim_C9_theorem.1 [statusLine ['M']] [] (by decide)
  exact ⟨ps, h1, h2.trans (by decide)⟩

set_option maxRecDepth 100000 in
/-- Claim C8, evaluated at the failing input: on a commit whose patch
contains no file changes, two reads of `files` invoke git once (the patch
IS memoized) but realize the parse twice — `if not self._files` cannot
distinguish "never parsed" from "parsed to the empty list", contradicting
the claimed parse-exactly-once memoization. -/
theorem claim_C8_theorem :
    (runReads emptyCommitGit (fun _ => false) (fun _ => none)
        [ReadOp.filesRead, ReadOp.filesRead] (initCommit none)).2 = (1, 2)
    ∧ parsePatch (fun _ => false) (emptyCommitGit none) = Except.ok [] := by
  constructor
  · decide
  · decide

end Ggshield
